import Mathlib

/-!
# BlueVein synchronization engine — shallow embedding and verification

This file embeds the core of the BlueVein Bluetooth-pairing synchronizer
(credential model, merge primitives, bidirectional sync algorithm, canonical
document read strategy, platform-store adapter behaviour) as executable Lean
definitions, translated from the Rust sources:

  * `src/bluetooth.rs` — credential model, `merge_with`, `merge_le_keys`,
    `validate_bluetooth_key`, `normalize_mac`;
  * `src/config.rs`    — `BlueVeinConfig` and its accessors;
  * `src/sync.rs`      — `SyncManager::merge_devices`, `devices_differ`,
    `sync_bidirectional`, `handle_device_removal`;
  * `src/efi.rs`       — `read_config` mounted-vs-raw strategy;
  * `src/linux/bluetooth.rs` — `get_adapters` / `get_devices` of the
    file-tree platform adapter.

Strings are modelled as lists of Unicode code points (`List Nat`); all
character classification functions below are the ASCII-range versions of the
Rust predicates, which agree with the Rust ones on every ASCII code point
(all data handled by the program — MAC addresses, hex keys, separators — is
ASCII).  Maps (`std::collections::HashMap`) are modelled as association
lists with replace-on-insert semantics; iteration order of a `HashMap` is
unspecified in Rust, and none of the verified statements depend on the
order chosen here.
-/

/-- A string, as its list of Unicode code points. -/
abbrev Str := List Nat

/-- Build a `Str` from a Lean string literal (code points). -/
def strLit (s : String) : Str := s.toList.map Char.toNat

/-- Rust `char::is_ascii_hexdigit`: 0-9, A-F, a-f. -/
def isAsciiHexDigit (c : Nat) : Bool :=
  (48 ≤ c && c ≤ 57) || (65 ≤ c && c ≤ 70) || (97 ≤ c && c ≤ 102)

/-- Rust `char::is_alphanumeric`, restricted to the ASCII range
(0-9, A-Z, a-z).  The Unicode predicate agrees with this one on every
ASCII code point. -/
def isAlphanumeric (c : Nat) : Bool :=
  (48 ≤ c && c ≤ 57) || (65 ≤ c && c ≤ 90) || (97 ≤ c && c ≤ 122)

/-- Rust `char::to_ascii_uppercase`. -/
def toAsciiUppercase (c : Nat) : Nat :=
  if 97 ≤ c && c ≤ 122 then c - 32 else c

/-! ## Credential model (`src/bluetooth.rs`) -/

/-- `LeLongTermKey` (src/bluetooth.rs lines 5-16). -/
structure LeLongTermKey where
  key : Str
  authenticated : Option Nat
  enc_size : Option Nat
  ediv : Option Nat
  rand : Option Nat
deriving DecidableEq, Repr

/-- `CsrkKey` (src/bluetooth.rs lines 26-33): a connection signature
resolving key with its replay counter and authentication flag. -/
structure CsrkKey where
  key : Str
  counter : Nat
  authenticated : Bool
deriving DecidableEq, Repr

/-- `LeKeys` (src/bluetooth.rs lines 46-60). -/
structure LeKeys where
  ltk : Option LeLongTermKey
  peripheral_ltk : Option LeLongTermKey
  irk : Option Str
  csrk_local : Option CsrkKey
  csrk_remote : Option CsrkKey
  address_type : Option Str
deriving DecidableEq, Repr

/-- `ClassicKeys` (src/bluetooth.rs lines 63-70). -/
structure ClassicKeys where
  link_key : Str
  key_type : Nat
  pin_length : Nat
deriving DecidableEq, Repr

/-- `BluetoothDevice` (src/bluetooth.rs lines 87-94). -/
structure BluetoothDevice where
  mac_address : Str
  classic : Option ClassicKeys
  le : Option LeKeys
deriving DecidableEq, Repr

namespace BluetoothDevice

/-- `BluetoothDevice::merge_le_keys` (src/bluetooth.rs lines 138-147):
field-by-field, preferring non-None values from `le2`. -/
def merge_le_keys (le1 le2 : LeKeys) : LeKeys :=
  { ltk := le2.ltk.or le1.ltk
    peripheral_ltk := le2.peripheral_ltk.or le1.peripheral_ltk
    irk := le2.irk.or le1.irk
    csrk_local := le2.csrk_local.or le1.csrk_local
    csrk_remote := le2.csrk_remote.or le1.csrk_remote
    address_type := le2.address_type.or le1.address_type }

/-- `BluetoothDevice::merge_with` (src/bluetooth.rs lines 125-135). -/
def merge_with (self other : BluetoothDevice) : BluetoothDevice :=
  { mac_address := self.mac_address
    classic := other.classic.or self.classic
    le := match self.le, other.le with
      | some le1, some le2 => some (merge_le_keys le1 le2)
      | some le, none => some le
      | none, some le => some le
      | none, none => none }

end BluetoothDevice

/-- Structured form of the validation errors produced by
`validate_bluetooth_key` (the Rust function formats them into strings;
each constructor carries exactly the data interpolated into the message,
with the input key reproduced verbatim). -/
inductive KeyValidationError where
  | nonHex (key_name key : Str)
  | wrongLength (key_name : Str) (expected got : Nat)
deriving DecidableEq, Repr

/-- `validate_bluetooth_key` (src/bluetooth.rs lines 163-184): all
characters must be ASCII hex digits, and the length must be exactly
`EXPECTED_LENGTH = 32`.  The input is only inspected, never transformed. -/
def validate_bluetooth_key (key key_name : Str) :
    Except KeyValidationError Unit :=
  if !(key.all isAsciiHexDigit) then
    .error (.nonHex key_name key)
  else if key.length ≠ 32 then
    .error (.wrongLength key_name 32 key.length)
  else
    .ok ()

/-- Index-tracking loop of `normalize_mac` (src/bluetooth.rs lines 218-223):
push a colon before every character at a positive even index, then push the
uppercased character. -/
def normalizeGo : Nat → Str → Str
  | _, [] => []
  | i, c :: rest =>
    (if i > 0 && i % 2 == 0 then [58] else []) ++
      toAsciiUppercase c :: normalizeGo (i + 1) rest

/-- `normalize_mac` (src/bluetooth.rs lines 214-226): strip
non-alphanumerics, insert a colon (code point 58) every two characters,
uppercase. -/
def normalize_mac (mac : Str) : Str :=
  normalizeGo 0 (mac.filter isAlphanumeric)

/-- Spec-side description of the canonical output form: the cleaned,
uppercased character list, grouped into pairs separated by colons. -/
def colonSeparated : Str → Str
  | [] => []
  | [c] => [c]
  | c1 :: c2 :: rest =>
    match rest with
    | [] => [c1, c2]
    | _ :: _ => c1 :: c2 :: 58 :: colonSeparated rest

/-! ## Association lists

`std::collections::HashMap` is modelled as an association list with
replace-on-insert semantics.  Lookup scans left to right; insert replaces
the binding of an existing key in place and appends a fresh key at the
end. -/

/-- HashMap lookup (`HashMap::get`). -/
def alistLookup (k : Str) : List (Str × α) → Option α
  | [] => none
  | (k', v) :: rest => if k' = k then some v else alistLookup k rest

/-- HashMap insert (`HashMap::insert`): replace an existing binding,
otherwise append. -/
def alistInsert (k : Str) (v : α) : List (Str × α) → List (Str × α)
  | [] => [(k, v)]
  | (k', v') :: rest =>
    if k' = k then (k, v) :: rest else (k', v') :: alistInsert k v rest

/-! ## Canonical document (`src/config.rs`) -/

/-- `DeviceConfig` (src/config.rs lines 7-10): paired devices of one
adapter, keyed by device MAC. -/
structure DeviceConfig where
  devices : List (Str × BluetoothDevice)
deriving DecidableEq, Repr

/-- `BlueVeinConfig` (src/config.rs lines 16-19): the canonical document,
keyed by adapter MAC. -/
structure BlueVeinConfig where
  adapters : List (Str × DeviceConfig)
deriving DecidableEq, Repr

namespace BlueVeinConfig

/-- `BlueVeinConfig::new` (src/config.rs lines 23-25). -/
def new : BlueVeinConfig := ⟨[]⟩

/-- `BlueVeinConfig::get_adapter_devices` (src/config.rs lines 38-40). -/
def get_adapter_devices (c : BlueVeinConfig) (adapter_mac : Str) :
    Option (List (Str × BluetoothDevice)) :=
  (alistLookup adapter_mac c.adapters).map DeviceConfig.devices

/-- `BlueVeinConfig::set_adapter_devices` (src/config.rs lines 43-45). -/
def set_adapter_devices (c : BlueVeinConfig) (adapter_mac : Str)
    (devices : List (Str × BluetoothDevice)) : BlueVeinConfig :=
  ⟨alistInsert adapter_mac ⟨devices⟩ c.adapters⟩

/-- `BlueVeinConfig::update_device` (src/config.rs lines 48-57): insert
the device under its own `mac_address` into the adapter's map, creating
the adapter entry when absent. -/
def update_device (c : BlueVeinConfig) (adapter_mac : Str)
    (device : BluetoothDevice) : BlueVeinConfig :=
  let cur := match alistLookup adapter_mac c.adapters with
    | some dc => dc.devices
    | none => []
  ⟨alistInsert adapter_mac ⟨alistInsert device.mac_address device cur⟩
    c.adapters⟩

/-- `BlueVeinConfig::get_device` (src/config.rs lines 60-63). -/
def get_device (c : BlueVeinConfig) (adapter_mac device_mac : Str) :
    Option BluetoothDevice :=
  (c.get_adapter_devices adapter_mac).bind (alistLookup device_mac)

end BlueVeinConfig

/-! ## Sync engine (`src/sync.rs`) -/

namespace SyncManager

/-- `SyncManager::devices_differ` (src/sync.rs lines 20-28). -/
def devices_differ (dev1 dev2 : BluetoothDevice) : Bool :=
  if dev1.classic ≠ dev2.classic then true
  else if dev1.le ≠ dev2.le then true
  else false

/-- The CSRK merge used by the engine: the two identical `match`
expressions of `SyncManager::merge_devices` (src/sync.rs lines 44-62 for
`csrk_local`, 65-81 for `csrk_remote`), written once.  Same key: keep the
system key, take the MAX counter, OR the authenticated flags.  Different
keys: prefer the EFI (overlay) side.  One side only: take it. -/
def merge_csrk : Option CsrkKey → Option CsrkKey → Option CsrkKey
  | some sys_csrk, some efi_csrk =>
    if sys_csrk.key = efi_csrk.key then
      some { key := sys_csrk.key
             counter := max sys_csrk.counter efi_csrk.counter
             authenticated := sys_csrk.authenticated || efi_csrk.authenticated }
    else
      some efi_csrk
  | some csrk, none => some csrk
  | none, some csrk => some csrk
  | none, none => none

/-- `SyncManager::merge_devices` (src/sync.rs lines 37-88): base merge via
`merge_with`, then overwrite the CSRK fields of the merged LE bundle (when
present) with the MAX-counter merge of the two sides. -/
def merge_devices (system_device efi_device : BluetoothDevice) :
    BluetoothDevice :=
  let merged := system_device.merge_with efi_device
  match merged.le with
  | none => merged
  | some merged_le =>
    { merged with
      le := some { merged_le with
        csrk_local := merge_csrk
          (system_device.le.bind LeKeys.csrk_local)
          (efi_device.le.bind LeKeys.csrk_local)
        csrk_remote := merge_csrk
          (system_device.le.bind LeKeys.csrk_remote)
          (efi_device.le.bind LeKeys.csrk_remote) } }

/-- The environment a run of `sync_bidirectional` observes: the result of
`efi::read_config` (`some` on success, `none` for `NotFound`; an I/O error
makes the Rust function return before doing anything), the adapter list
returned by `get_adapters`, and the per-adapter result of `get_devices`
(`none` models the error branch, whose devices are skipped). -/
structure SyncInput where
  efi : Option BlueVeinConfig
  adapters : List Str
  getDevices : Str → Option (List BluetoothDevice)

/-- Device list → map keyed by `mac_address` (src/sync.rs lines 141-144). -/
def buildDeviceMap (devices : List BluetoothDevice) :
    List (Str × BluetoothDevice) :=
  devices.foldl (fun m device => alistInsert device.mac_address device m) []

/-- One iteration of the system-state loop (src/sync.rs lines 132-156):
an adapter is recorded only when its `get_devices` succeeded with a
non-empty list; an error is logged and skipped. -/
def buildSystemStep (getDevices : Str → Option (List BluetoothDevice))
    (cfg : BlueVeinConfig) (adapter_mac : Str) : BlueVeinConfig :=
  match getDevices adapter_mac with
  | some devices =>
    if devices.isEmpty then cfg
    else cfg.set_adapter_devices adapter_mac (buildDeviceMap devices)
  | none => cfg

/-- The system-state map built in src/sync.rs lines 122-156. -/
def buildSystemConfig (input : SyncInput) : BlueVeinConfig :=
  input.adapters.foldl (buildSystemStep input.getDevices) BlueVeinConfig.new

/-- Body of the `for (device_mac, efi_device) in efi_devices` loop of
src/sync.rs lines 168-202: when the EFI device also exists in the system,
compute the merge (the Rust `let merged`, inlined here) and, when it
differs from the system device, emit a `set_device` call. -/
def syncStep1Fold (system_devices : List (Str × BluetoothDevice))
    (adapter_mac : Str) (calls : List (Str × BluetoothDevice))
    (p : Str × BluetoothDevice) : List (Str × BluetoothDevice) :=
  match alistLookup p.1 system_devices with
  | some system_device =>
    if devices_differ system_device (merge_devices system_device p.2) then
      calls ++ [(adapter_mac, merge_devices system_device p.2)]
    else calls
  | none => calls

/-- Step 1 of the merge loop (src/sync.rs lines 162-204): for each EFI
device of this adapter that also exists in the system, emit the
`set_device` calls computed by `syncStep1Fold`, in order. -/
def syncStep1 (system_config efi_cfg : BlueVeinConfig) (adapter_mac : Str) :
    List (Str × BluetoothDevice) :=
  match efi_cfg.get_adapter_devices adapter_mac with
  | none => []
  | some efi_devices =>
    match system_config.get_adapter_devices adapter_mac with
    | none => []
    | some system_devices =>
      efi_devices.foldl (syncStep1Fold system_devices adapter_mac) []

/-- Body of the collection loop of src/sync.rs lines 212-221: a system
device whose MAC is not a key of the adapter's EFI device map (or whose
adapter is absent from the EFI config entirely) is appended to
`devices_to_add`. -/
def syncStep2Collect (efi_devices : Option (List (Str × BluetoothDevice)))
    (acc : List BluetoothDevice) (p : Str × BluetoothDevice) :
    List BluetoothDevice :=
  if (match efi_devices with
      | some ds => (alistLookup p.1 ds).isSome
      | none => false)
  then acc else acc ++ [p.2]

/-- Step 2 of the merge loop (src/sync.rs lines 206-233): collect the
system devices of this adapter that are absent from the EFI config
(against the EFI state read once, before any mutation), then add each to
the EFI config via `update_device`. -/
def syncStep2 (system_config efi_cfg : BlueVeinConfig) (adapter_mac : Str) :
    BlueVeinConfig :=
  match system_config.get_adapter_devices adapter_mac with
  | none => efi_cfg
  | some system_devices =>
    let devices_to_add := system_devices.foldl
      (syncStep2Collect (efi_cfg.get_adapter_devices adapter_mac)) []
    devices_to_add.foldl (fun cfg d => cfg.update_device adapter_mac d)
      efi_cfg

/-- One iteration of the `for adapter_mac in &adapters` loop of
src/sync.rs lines 163-234, threading the evolving EFI config and the list
of `set_device` calls issued so far. -/
def syncAdapterFold (system_config : BlueVeinConfig)
    (st : BlueVeinConfig × List (Str × BluetoothDevice)) (adapter_mac : Str) :
    BlueVeinConfig × List (Str × BluetoothDevice) :=
  (syncStep2 system_config st.1 adapter_mac,
   st.2 ++ syncStep1 system_config st.1 adapter_mac)

/-- `SyncManager::sync_bidirectional` (src/sync.rs lines 102-254), as a
function of the observed environment.  Returns the final config passed to
`efi::write_config` and the ordered list of `set_device` calls issued to
the platform store. -/
def sync_bidirectional (input : SyncInput) :
    BlueVeinConfig × List (Str × BluetoothDevice) :=
  let system_config := buildSystemConfig input
  match input.efi with
  | some efi_cfg =>
    input.adapters.foldl (syncAdapterFold system_config) (efi_cfg, [])
  | none => (system_config, [])

/-- Shared state visible to `handle_device_removal`: the canonical
document bytes on the ESP and the platform stores. -/
structure World where
  efiFile : Option Str
  platform : List (Str × List BluetoothDevice)
deriving DecidableEq, Repr

/-- `SyncManager::handle_device_removal` (src/sync.rs lines 432-449): the
body only logs; it touches neither the canonical document nor the platform
store and returns `Ok(())`. -/
def handle_device_removal (w : World) (adapter_mac device_mac : Str) :
    Except Str Unit × World :=
  (.ok (), w)

end SyncManager

/-! ## Canonical-document persistence (`src/efi.rs`) -/

/-- `EfiError` (src/efi.rs lines 10-15).  The payload strings of the error
constructors carry the underlying message. -/
inductive EfiError where
  | NotFound
  | ReadError (msg : Str)
  | WriteError (msg : Str)
  | ParseError (msg : Str)
deriving DecidableEq, Repr

/-- The mounted view of the ESP, when `find_mounted_efi` succeeds:
whether `<mount>/bluevein.json` exists, and the outcome of
`fs::read_to_string` on it. -/
structure MountedView where
  fileExists : Bool
  readFile : Except Str Str
deriving Repr

/-- The raw FAT32 volume (`fat32_raw::Fat32Volume`), as a blob store: the
outcome of `read_file("bluevein.json")` (`ok none` = file absent). -/
structure RawVolume where
  readFileResult : Except Str (Option Str)
deriving Repr

/-- Environment a run of `efi::read_config` observes: the mounted view
(`none` when `find_mounted_efi` returns `None`), the result of
`Fat32Volume::open_esp` (`ok none` = no ESP found), and the serde JSON
parser `BlueVeinConfig::from_json` as an oracle. -/
structure ReadEnv where
  mounted : Option MountedView
  openEsp : Except Str (Option RawVolume)
  parse : Str → Except Str BlueVeinConfig

/-- The raw-FAT32 fallback branch of `efi::read_config`
(src/efi.rs lines 77-95). -/
def rawReadConfig (env : ReadEnv) : Except EfiError BlueVeinConfig :=
  match env.openEsp with
  | .error e => .error (.ReadError e)
  | .ok none => .error (.ReadError (strLit "ESP partition not found"))
  | .ok (some volume) =>
    match volume.readFileResult with
    | .ok (some data) => (env.parse data).mapError EfiError.ParseError
    | .ok none => .error .NotFound
    | .error e => .error (.ReadError e)

/-- `efi::read_config` (src/efi.rs lines 55-96).  The second component
records whether the raw-FAT32 fallback was consulted. -/
def read_config (env : ReadEnv) : Except EfiError BlueVeinConfig × Bool :=
  match env.mounted with
  | some mv =>
    if mv.fileExists then
      match mv.readFile with
      | .ok json_str => ((env.parse json_str).mapError EfiError.ParseError, false)
      | .error _ => (rawReadConfig env, true)
    else
      (.error .NotFound, false)
  | none => (rawReadConfig env, true)

/-! ## File-tree platform adapter (`src/linux/bluetooth.rs`) -/

namespace LinuxBluetoothManager

/-- One entry of `fs::read_dir`. -/
structure DirEntry where
  name : Str
  is_dir : Bool
deriving DecidableEq, Repr

/-- The parts of the filesystem the adapter reads: whether
`/var/lib/bluetooth` exists and its entries, and per adapter MAC whether
its directory exists and its entries (`none` = path absent); plus the
outcome of `read_device_keys` for each `(adapter, device)` pair. -/
structure LinuxFs where
  bluetoothLibExists : Bool
  bluetoothLibEntries : List DirEntry
  adapterDirEntries : Str → Option (List DirEntry)
  readDeviceKeys : Str → Str → Except Str BluetoothDevice

/-- `LinuxBluetoothManager::get_adapters`
(src/linux/bluetooth.rs lines 433-451): missing root directory yields
`Ok []`; otherwise collect every directory entry shaped like a MAC
address (contains a colon, length 17). -/
def get_adapters (fs : LinuxFs) : Except Str (List Str) :=
  if !fs.bluetoothLibExists then .ok []
  else .ok (fs.bluetoothLibEntries.foldl
    (fun adapters entry =>
      if entry.name.contains 58 && entry.name.length == 17 && entry.is_dir
      then adapters ++ [normalize_mac entry.name]
      else adapters)
    [])

/-- `LinuxBluetoothManager::get_devices`
(src/linux/bluetooth.rs lines 453-478): missing adapter directory yields
`Ok []`; otherwise read keys of every MAC-shaped subdirectory, skipping
devices whose `read_device_keys` fails. -/
def get_devices (fs : LinuxFs) (adapter_mac : Str) :
    Except Str (List BluetoothDevice) :=
  match fs.adapterDirEntries adapter_mac with
  | none => .ok []
  | some entries =>
    .ok (entries.foldl
      (fun devices entry =>
        if entry.is_dir then
          if entry.name.contains 58 && entry.name.length == 17 then
            match fs.readDeviceKeys adapter_mac entry.name with
            | .ok device => devices ++ [device]
            | .error _ => devices
          else devices
        else devices)
      [])

end LinuxBluetoothManager

/-! ## Helper lemmas -/

theorem merge_le_keys_self (l : LeKeys) :
    BluetoothDevice.merge_le_keys l l = l := by
  cases l
  simp [BluetoothDevice.merge_le_keys]

theorem merge_with_self (d : BluetoothDevice) : d.merge_with d = d := by
  obtain ⟨mac, classic, le⟩ := d
  cases le <;> simp [BluetoothDevice.merge_with, merge_le_keys_self]

theorem merge_csrk_self (x : Option CsrkKey) :
    SyncManager.merge_csrk x x = x := by
  cases x with
  | none => rfl
  | some c =>
    cases c
    simp [SyncManager.merge_csrk]

theorem merge_devices_self (d : BluetoothDevice) :
    SyncManager.merge_devices d d = d := by
  unfold SyncManager.merge_devices
  rw [merge_with_self]
  obtain ⟨mac, classic, le⟩ := d
  cases le with
  | none => rfl
  | some mle =>
    cases mle
    simp [merge_csrk_self, Option.bind]

/-! ## Claim theorems (first batch) -/

/-- C4.  The CSRK merge used by the engine: on equal keys it returns the
system key with MAX counter and OR-ed authenticated flags (so the merged
counter dominates both); on different keys it returns the overlay (EFI)
value; with one side absent it returns the present side; and
`merge_devices` applies exactly this merge to both `csrk_local` and
`csrk_remote`. -/
theorem merge_csrk_spec :
    ∀ a b : CsrkKey,
      (a.key = b.key →
        SyncManager.merge_csrk (some a) (some b) =
          some ⟨a.key, max a.counter b.counter,
                a.authenticated || b.authenticated⟩ ∧
        ∀ c, SyncManager.merge_csrk (some a) (some b) = some c →
          max a.counter b.counter ≤ c.counter) ∧
      (a.key ≠ b.key →
        SyncManager.merge_csrk (some a) (some b) = some b) ∧
      SyncManager.merge_csrk (some a) none = some a ∧
      SyncManager.merge_csrk none (some b) = some b ∧
      (∀ sd ed : BluetoothDevice, ∀ sle ele : LeKeys,
        sd.le = some sle → ed.le = some ele →
        (SyncManager.merge_devices sd ed).le =
          some { BluetoothDevice.merge_le_keys sle ele with
                 csrk_local :=
                   SyncManager.merge_csrk sle.csrk_local ele.csrk_local
                 csrk_remote :=
                   SyncManager.merge_csrk sle.csrk_remote ele.csrk_remote }) := by
  intro a b
  refine ⟨fun h => ⟨?_, ?_⟩, fun h => ?_, rfl, rfl, ?_⟩
  · simp [SyncManager.merge_csrk, h]
  · intro c hc
    simp [SyncManager.merge_csrk, h] at hc
    subst hc
    simp
  · simp [SyncManager.merge_csrk, h]
  · intro sd ed sle ele hs he
    unfold SyncManager.merge_devices
    simp [BluetoothDevice.merge_with, hs, he, Option.bind]

/-- C4 witness: concrete same-key merge. -/
theorem merge_csrk_spec_witness :
    SyncManager.merge_csrk (some (⟨[65], 3, false⟩ : CsrkKey))
        (some (⟨[65], 7, true⟩ : CsrkKey)) =
      some ⟨(⟨[65], 3, false⟩ : CsrkKey).key,
            max (⟨([65] : Str), 3, false⟩ : CsrkKey).counter
              (⟨([65] : Str), 7, true⟩ : CsrkKey).counter,
            (⟨([65] : Str), 3, false⟩ : CsrkKey).authenticated ||
              (⟨([65] : Str), 7, true⟩ : CsrkKey).authenticated⟩ :=
  ((merge_csrk_spec ⟨[65], 3, false⟩ ⟨[65], 7, true⟩).1 rfl).1

/-- C5.  `validate_bluetooth_key` succeeds iff the key has exactly 32
characters, all ASCII hex digits; failures are exactly the non-hex error
(carrying the input verbatim) or the wrong-length error naming 32 as the
expected length. -/
theorem validate_bluetooth_key_spec :
    ∀ key key_name : Str,
      (validate_bluetooth_key key key_name = .ok () ↔
        key.length = 32 ∧ key.all isAsciiHexDigit = true) ∧
      (key.all isAsciiHexDigit = false →
        validate_bluetooth_key key key_name =
          .error (.nonHex key_name key)) ∧
      (key.all isAsciiHexDigit = true → key.length ≠ 32 →
        validate_bluetooth_key key key_name =
          .error (.wrongLength key_name 32 key.length)) ∧
      (∀ e, validate_bluetooth_key key key_name = .error e →
        e = .nonHex key_name key ∨
        e = .wrongLength key_name 32 key.length) := by
  intro key key_name
  cases h : key.all isAsciiHexDigit with
  | false =>
    have hv : validate_bluetooth_key key key_name =
        .error (.nonHex key_name key) := by
      simp [validate_bluetooth_key, h]
    refine ⟨?_, fun _ => hv, ?_, ?_⟩
    · rw [hv]; simp [h]
    · intro hall; simp at hall
    · intro e he
      rw [hv] at he
      injection he with h2
      exact Or.inl h2.symm
  | true =>
    by_cases hl : key.length = 32
    · have hv : validate_bluetooth_key key key_name = .ok () := by
        simp [validate_bluetooth_key, h, hl]
      refine ⟨?_, ?_, ?_, ?_⟩
      · rw [hv]; simp [h, hl]
      · intro hf; simp at hf
      · intro _ hne; exact absurd hl hne
      · intro e he; rw [hv] at he; cases he
    · have hv : validate_bluetooth_key key key_name =
          .error (.wrongLength key_name 32 key.length) := by
        simp [validate_bluetooth_key, h, hl]
      refine ⟨?_, ?_, fun _ _ => hv, ?_⟩
      · rw [hv]; simp [hl]
      · intro hf; simp at hf
      · intro e he
        rw [hv] at he
        injection he with h2
        exact Or.inr h2.symm

/-- C5 witness: a 4-character hex key fails with the wrong-length error
naming 32. -/
theorem validate_bluetooth_key_spec_witness :
    validate_bluetooth_key (strLit "0123") [] =
      .error (.wrongLength [] 32 (strLit "0123").length) :=
  (validate_bluetooth_key_spec (strLit "0123") []).2.2.1 (by decide) (by decide)

/-- C6.  Device merge is idempotent — both for the base `merge_with` and
for the engine's CSRK-aware `merge_devices` — and for each top-level
optional field the overlay's value wins when present, else the base's
persists, with the LE bundle merged field-by-field under the same rule. -/
theorem merge_device_idempotent :
    ∀ d base overlay : BluetoothDevice,
      d.merge_with d = d ∧
      SyncManager.merge_devices d d = d ∧
      (base.merge_with overlay).mac_address = base.mac_address ∧
      (base.merge_with overlay).classic = overlay.classic.or base.classic ∧
      (∀ l1 l2 : LeKeys, base.le = some l1 → overlay.le = some l2 →
        (base.merge_with overlay).le =
          some { ltk := l2.ltk.or l1.ltk
                 peripheral_ltk := l2.peripheral_ltk.or l1.peripheral_ltk
                 irk := l2.irk.or l1.irk
                 csrk_local := l2.csrk_local.or l1.csrk_local
                 csrk_remote := l2.csrk_remote.or l1.csrk_remote
                 address_type := l2.address_type.or l1.address_type }) ∧
      (base.le = none → (base.merge_with overlay).le = overlay.le) ∧
      (overlay.le = none → (base.merge_with overlay).le = base.le) := by
  intro d base overlay
  refine ⟨merge_with_self d, merge_devices_self d, rfl, rfl, ?_, ?_, ?_⟩
  · intro l1 l2 h1 h2
    simp [BluetoothDevice.merge_with, h1, h2, BluetoothDevice.merge_le_keys]
  · intro h1
    cases h2 : overlay.le <;>
      simp [BluetoothDevice.merge_with, h1, h2]
  · intro h2
    cases h1 : base.le <;>
      simp [BluetoothDevice.merge_with, h1, h2]

/-- C6 witness: concrete idempotence and LE merge. -/
theorem merge_device_idempotent_witness :
    SyncManager.merge_devices ⟨[66], none, some ⟨none, none, some [73], none, none, none⟩⟩
        ⟨[66], none, some ⟨none, none, some [73], none, none, none⟩⟩ =
      ⟨[66], none, some ⟨none, none, some [73], none, none, none⟩⟩ ∧
    ((⟨[66], none, some ⟨none, none, some [73], none, none, none⟩⟩ :
        BluetoothDevice).merge_with
      ⟨[66], none, some ⟨none, none, none, some ⟨[75], 2, true⟩, none, none⟩⟩).le =
      some ⟨none, none, (none : Option Str).or (some [73]),
            (some (⟨[75], 2, true⟩ : CsrkKey)).or none, none, none⟩ := by
  have h := merge_device_idempotent
    ⟨[66], none, some ⟨none, none, some [73], none, none, none⟩⟩
    ⟨[66], none, some ⟨none, none, some [73], none, none, none⟩⟩
    ⟨[66], none, some ⟨none, none, none, some ⟨[75], 2, true⟩, none, none⟩⟩
  exact ⟨h.2.1, h.2.2.2.2.1 _ _ rfl rfl⟩

/-- C9.  `handle_device_removal` returns `Ok` and leaves the shared
state — the canonical document bytes and the platform stores — exactly as
it was. -/
theorem handle_device_removal_noop :
    ∀ (w : SyncManager.World) (adapter_mac device_mac : Str),
      SyncManager.handle_device_removal w adapter_mac device_mac =
        (.ok (), w) ∧
      (SyncManager.handle_device_removal w adapter_mac device_mac).2.efiFile
        = w.efiFile ∧
      (SyncManager.handle_device_removal w adapter_mac device_mac).2.platform
        = w.platform :=
  fun _ _ _ => ⟨rfl, rfl, rfl⟩

/-- C8.  Canonical-document read strategy: with a mounted ESP the mounted
read comes first; a mounted-read I/O failure falls back to the raw FAT32
path; but when the mount point is found and the file is simply absent,
`read_config` returns `NotFound` immediately and the raw fallback is never
consulted. -/
theorem read_config_strategy (env : ReadEnv) (mv : MountedView)
    (hm : env.mounted = some mv) :
    (mv.fileExists = false →
      read_config env = (.error .NotFound, false)) ∧
    (∀ msg, mv.fileExists = true → mv.readFile = .error msg →
      read_config env = (rawReadConfig env, true)) ∧
    (∀ json_str, mv.fileExists = true → mv.readFile = .ok json_str →
      read_config env =
        ((env.parse json_str).mapError EfiError.ParseError, false)) := by
  refine ⟨?_, ?_, ?_⟩
  · intro hf
    simp [read_config, hm, hf]
  · intro msg hf hr
    simp [read_config, hm, hf, hr]
  · intro json_str hf hr
    simp [read_config, hm, hf, hr]

/-- C8 witness: mounted view found, file absent — `NotFound` with no raw
fallback. -/
theorem read_config_strategy_witness :
    read_config ⟨some ⟨false, .error [120]⟩, .ok none, fun _ => .error [112]⟩
      = (.error .NotFound, false) :=
  (read_config_strategy
    ⟨some ⟨false, .error [120]⟩, .ok none, fun _ => .error [112]⟩
    ⟨false, .error [120]⟩ rfl).1 rfl

/-- C10.  On the file-tree platform adapter a missing store root is not an
error: a missing `/var/lib/bluetooth` makes `get_adapters` return
`Ok []`, and a missing adapter directory makes `get_devices` return
`Ok []`. -/
theorem linux_missing_store_empty (fs : LinuxBluetoothManager.LinuxFs)
    (adapter_mac : Str) :
    (fs.bluetoothLibExists = false →
      LinuxBluetoothManager.get_adapters fs = .ok []) ∧
    (fs.adapterDirEntries adapter_mac = none →
      LinuxBluetoothManager.get_devices fs adapter_mac = .ok []) := by
  constructor
  · intro h
    simp [LinuxBluetoothManager.get_adapters, h]
  · intro h
    simp [LinuxBluetoothManager.get_devices, h]

/-- C10 witness: a filesystem with no bluetooth root and no adapter
directory. -/
theorem linux_missing_store_empty_witness :
    LinuxBluetoothManager.get_adapters ⟨false, [], fun _ => none, fun _ _ => .error [101]⟩ = .ok [] ∧
    LinuxBluetoothManager.get_devices ⟨false, [], fun _ => none, fun _ _ => .error [101]⟩ [65] = .ok [] :=
  ⟨(linux_missing_store_empty ⟨false, [], fun _ => none, fun _ _ => .error [101]⟩ [65]).1 rfl,
   (linux_missing_store_empty ⟨false, [], fun _ => none, fun _ _ => .error [101]⟩ [65]).2 rfl⟩

/-! ## Lemmas about MAC normalization -/

theorem toAsciiUppercase_lower {c : Nat} (h1 : 97 ≤ c) (h2 : c ≤ 122) :
    toAsciiUppercase c = c - 32 := by
  simp [toAsciiUppercase, h1, h2]

theorem toAsciiUppercase_not_lower {c : Nat} (h : ¬(97 ≤ c ∧ c ≤ 122)) :
    toAsciiUppercase c = c := by
  rw [toAsciiUppercase, if_neg (by simpa using h)]

theorem toAsciiUppercase_idem (c : Nat) :
    toAsciiUppercase (toAsciiUppercase c) = toAsciiUppercase c := by
  by_cases h : 97 ≤ c ∧ c ≤ 122
  · rw [toAsciiUppercase_lower h.1 h.2,
      toAsciiUppercase_not_lower (by omega)]
  · rw [toAsciiUppercase_not_lower h, toAsciiUppercase_not_lower h]

theorem isAlphanumeric_toAsciiUppercase {c : Nat}
    (h : isAlphanumeric c = true) :
    isAlphanumeric (toAsciiUppercase c) = true := by
  by_cases hc : 97 ≤ c ∧ c ≤ 122
  · rw [toAsciiUppercase_lower hc.1 hc.2]
    simp [isAlphanumeric] at h ⊢
    omega
  · rw [toAsciiUppercase_not_lower hc]
    exact h

theorem normalizeGo_congr_parity :
    ∀ (l : Str) (n m : Nat), n % 2 = m % 2 → 0 < n → 0 < m →
      normalizeGo n l = normalizeGo m l := by
  intro l
  induction l with
  | nil => intros; rfl
  | cons c rest ih =>
    intro n m hp hn hm
    simp only [normalizeGo]
    have hcond : (decide (n > 0) && (n % 2 == 0)) =
        (decide (m > 0) && (m % 2 == 0)) := by
      rw [decide_eq_true hn, decide_eq_true hm, hp]
    rw [hcond, ih (n + 1) (m + 1) (by omega) (by omega) (by omega)]

theorem filter_normalizeGo :
    ∀ (l : Str), (∀ c ∈ l, isAlphanumeric c = true) → ∀ i : Nat,
      (normalizeGo i l).filter isAlphanumeric = l.map toAsciiUppercase := by
  intro l
  induction l with
  | nil => intros; rfl
  | cons c rest ih =>
    intro h i
    simp only [normalizeGo, List.filter_append, List.map_cons]
    have h58 : List.filter isAlphanumeric
        (if (decide (i > 0) && (i % 2 == 0)) then ([58] : Str) else []) = [] := by
      split <;> decide
    rw [h58, List.nil_append,
      List.filter_cons_of_pos
        (isAlphanumeric_toAsciiUppercase (h c (by simp))),
      ih (fun x hx => h x (by simp [hx])) (i + 1)]

theorem normalizeGo_map_upper :
    ∀ (l : Str) (i : Nat),
      normalizeGo i (l.map toAsciiUppercase) = normalizeGo i l := by
  intro l
  induction l with
  | nil => intros; rfl
  | cons c rest ih =>
    intro i
    simp only [List.map_cons, normalizeGo, toAsciiUppercase_idem, ih]

theorem normalize_mac_idem (s : Str) :
    normalize_mac (normalize_mac s) = normalize_mac s := by
  unfold normalize_mac
  rw [filter_normalizeGo _ (fun c hc => List.of_mem_filter hc) 0,
    normalizeGo_map_upper]

theorem normalizeGo_two (r : Nat) (rr : Str) :
    normalizeGo 2 (r :: rr) = 58 :: normalizeGo 0 (r :: rr) := by
  simp only [normalizeGo]
  norm_num
  exact normalizeGo_congr_parity rr 3 1 rfl (by omega) (by omega)

theorem normalizeGo_eq_colonSeparated :
    ∀ l : Str, normalizeGo 0 l = colonSeparated (l.map toAsciiUppercase) := by
  have H : ∀ (n : Nat) (l : Str), l.length ≤ n →
      normalizeGo 0 l = colonSeparated (l.map toAsciiUppercase) := by
    intro n
    induction n with
    | zero =>
      intro l hl
      have : l = [] := List.eq_nil_of_length_eq_zero (Nat.le_zero.mp hl)
      subst this
      rfl
    | succ n ih =>
      intro l hl
      match l with
      | [] => rfl
      | [c] => simp [normalizeGo, colonSeparated]
      | c1 :: c2 :: [] => simp [normalizeGo, colonSeparated]
      | c1 :: c2 :: r :: rr =>
        have hlen : (r :: rr).length ≤ n := by
          simp at hl ⊢
          omega
        calc normalizeGo 0 (c1 :: c2 :: r :: rr)
            = toAsciiUppercase c1 :: toAsciiUppercase c2 ::
                normalizeGo 2 (r :: rr) := by
              simp [normalizeGo]
          _ = toAsciiUppercase c1 :: toAsciiUppercase c2 :: 58 ::
                normalizeGo 0 (r :: rr) := by rw [normalizeGo_two]
          _ = toAsciiUppercase c1 :: toAsciiUppercase c2 :: 58 ::
                colonSeparated ((r :: rr).map toAsciiUppercase) := by
              rw [ih _ hlen]
          _ = colonSeparated ((c1 :: c2 :: r :: rr).map toAsciiUppercase) := by
              simp [colonSeparated]
  intro l
  exact H l.length l (le_refl _)

/-- C7.  MAC normalization is idempotent on every normalizable input (the
identity in fact holds for all inputs), and the result is the canonical
uppercase colon-separated form: strip non-alphanumerics, uppercase, insert
a colon every two characters. -/
theorem normalize_mac_spec :
    ∀ s : Str,
      ((s.filter isAlphanumeric).length = 12 →
        (s.filter isAlphanumeric).all isAsciiHexDigit = true →
        normalize_mac (normalize_mac s) = normalize_mac s) ∧
      normalize_mac s =
        colonSeparated ((s.filter isAlphanumeric).map toAsciiUppercase) := by
  intro s
  exact ⟨fun _ _ => normalize_mac_idem s,
    normalizeGo_eq_colonSeparated (s.filter isAlphanumeric)⟩

/-- C7 witness: a concrete lowercase colon-separated MAC. -/
theorem normalize_mac_spec_witness :
    normalize_mac (normalize_mac (strLit "aa:bb:cc:dd:ee:ff")) =
      normalize_mac (strLit "aa:bb:cc:dd:ee:ff") :=
  (normalize_mac_spec (strLit "aa:bb:cc:dd:ee:ff")).1 (by decide) (by decide)

/-! ## Association-list lemmas -/

theorem alistLookup_insert (k k' : Str) (v : α) (m : List (Str × α)) :
    alistLookup k (alistInsert k' v m) =
      if k' = k then some v else alistLookup k m := by
  induction m with
  | nil => simp [alistInsert, alistLookup]
  | cons p rest ih =>
    obtain ⟨k2, v2⟩ := p
    by_cases h2 : k2 = k' <;> by_cases hk : k' = k <;>
      simp_all [alistInsert, alistLookup]

theorem alistLookup_mem {k : Str} {v : α} :
    ∀ {m : List (Str × α)}, alistLookup k m = some v → (k, v) ∈ m := by
  intro m
  induction m with
  | nil => intro h; cases h
  | cons p rest ih =>
    obtain ⟨k2, v2⟩ := p
    intro h
    simp only [alistLookup] at h
    by_cases h2 : k2 = k
    · rw [if_pos h2] at h
      injection h with h
      subst h2 h
      exact List.mem_cons_self _ _
    · rw [if_neg h2] at h
      exact List.mem_cons_of_mem _ (ih h)

/-! ## Lemmas about the system-state map -/

theorem buildDeviceMap_lookup :
    ∀ (devs : List BluetoothDevice) (m0 : List (Str × BluetoothDevice))
      (k : Str) (d : BluetoothDevice),
      alistLookup k
        (devs.foldl (fun m device => alistInsert device.mac_address device m)
          m0) = some d →
      (d ∈ devs ∧ d.mac_address = k) ∨ alistLookup k m0 = some d := by
  intro devs
  induction devs with
  | nil => intro m0 k d h; exact Or.inr h
  | cons c rest ih =>
    intro m0 k d h
    rw [List.foldl_cons] at h
    rcases ih _ _ _ h with h1 | h1
    · exact Or.inl ⟨List.mem_cons_of_mem _ h1.1, h1.2⟩
    · rw [alistLookup_insert] at h1
      by_cases hk : c.mac_address = k
      · rw [if_pos hk] at h1
        injection h1 with h1
        subst h1
        exact Or.inl ⟨List.mem_cons_self _ _, hk⟩
      · rw [if_neg hk] at h1
        exact Or.inr h1

theorem buildDeviceMap_lookup_isSome :
    ∀ (devs : List BluetoothDevice) (m0 : List (Str × BluetoothDevice))
      (k : Str),
      ((∃ d ∈ devs, d.mac_address = k) ∨ (alistLookup k m0).isSome = true) →
      (alistLookup k
        (devs.foldl (fun m device => alistInsert device.mac_address device m)
          m0)).isSome = true := by
  intro devs
  induction devs with
  | nil =>
    rintro m0 k (⟨d, hd, _⟩ | h)
    · cases hd
    · exact h
  | cons c rest ih =>
    rintro m0 k (⟨d, hd, hk⟩ | h)
    · rw [List.foldl_cons]
      rcases List.mem_cons.mp hd with rfl | hd'
      · refine ih _ _ (Or.inr ?_)
        rw [alistLookup_insert, if_pos hk]
        rfl
      · exact ih _ _ (Or.inl ⟨d, hd', hk⟩)
    · rw [List.foldl_cons]
      refine ih _ _ (Or.inr ?_)
      rw [alistLookup_insert]
      by_cases hk : c.mac_address = k
      · rw [if_pos hk]; rfl
      · rw [if_neg hk]; exact h

theorem alistInsert_forall {P : Str × α → Prop} {m : List (Str × α)}
    (hm : ∀ p ∈ m, P p) (k : Str) (v : α) (hkv : P (k, v)) :
    ∀ p ∈ alistInsert k v m, P p := by
  induction m with
  | nil =>
    intro p hp
    simp [alistInsert] at hp
    subst hp
    exact hkv
  | cons q rest ih =>
    intro p hp
    obtain ⟨k2, v2⟩ := q
    simp only [alistInsert] at hp
    by_cases h2 : k2 = k
    · rw [if_pos h2] at hp
      rcases List.mem_cons.mp hp with rfl | hp'
      · exact hkv
      · exact hm p (List.mem_cons_of_mem _ hp')
    · rw [if_neg h2] at hp
      rcases List.mem_cons.mp hp with rfl | hp'
      · exact hm _ (List.mem_cons_self _ _)
      · exact ih (fun q hq => hm q (List.mem_cons_of_mem _ hq)) p hp'

theorem buildDeviceMap_pairs :
    ∀ (devs : List BluetoothDevice) (m0 : List (Str × BluetoothDevice)),
      (∀ p ∈ m0, (p : Str × BluetoothDevice).2.mac_address = p.1) →
      ∀ p ∈ devs.foldl
          (fun m device => alistInsert device.mac_address device m) m0,
        (p : Str × BluetoothDevice).2.mac_address = p.1 := by
  intro devs
  induction devs with
  | nil => intro m0 h; exact h
  | cons c rest ih =>
    intro m0 h
    rw [List.foldl_cons]
    exact ih _ (alistInsert_forall h c.mac_address c rfl)

theorem buildSystemFold_lookup (g : Str → Option (List BluetoothDevice)) :
    ∀ (ads : List Str) (cfg0 : BlueVeinConfig),
      (∀ amac dc, alistLookup amac cfg0.adapters = some dc →
        ∃ devs, g amac = some devs ∧
          dc.devices = SyncManager.buildDeviceMap devs) →
      ∀ amac dc,
        alistLookup amac
          ((ads.foldl (SyncManager.buildSystemStep g) cfg0)).adapters =
            some dc →
        ∃ devs, g amac = some devs ∧
          dc.devices = SyncManager.buildDeviceMap devs := by
  intro ads
  induction ads with
  | nil => intro cfg0 h amac dc hl; exact h _ _ hl
  | cons a rest ih =>
    intro cfg0 h amac dc hl
    rw [List.foldl_cons] at hl
    refine ih _ ?_ _ _ hl
    intro amac' dc' hl'
    unfold SyncManager.buildSystemStep at hl'
    split at hl'
    · rename_i devs2 hg2
      split at hl'
      · exact h _ _ hl'
      · simp only [BlueVeinConfig.set_adapter_devices] at hl'
        rw [alistLookup_insert] at hl'
        by_cases ha : a = amac'
        · rw [if_pos ha] at hl'
          injection hl' with hdc
          subst ha
          exact ⟨devs2, hg2, by rw [← hdc]⟩
        · rw [if_neg ha] at hl'
          exact h _ _ hl'
    · exact h _ _ hl'

theorem buildSystemConfig_get (input : SyncManager.SyncInput)
    (amac : Str) (sys_devs : List (Str × BluetoothDevice))
    (h : (SyncManager.buildSystemConfig input).get_adapter_devices amac =
      some sys_devs) :
    ∃ devs, input.getDevices amac = some devs ∧
      sys_devs = SyncManager.buildDeviceMap devs := by
  unfold BlueVeinConfig.get_adapter_devices at h
  cases hl : alistLookup amac
      (SyncManager.buildSystemConfig input).adapters with
  | none => rw [hl] at h; cases h
  | some dc =>
    rw [hl] at h
    injection h with h
    unfold SyncManager.buildSystemConfig at hl
    obtain ⟨devs, hg, hd⟩ := buildSystemFold_lookup input.getDevices
      input.adapters BlueVeinConfig.new
      (by intro amac' dc' hl'; cases hl') amac dc hl
    exact ⟨devs, hg, by rw [← h, hd]⟩

theorem buildSystemFold_stable (g : Str → Option (List BluetoothDevice))
    (amac : Str) (devs : List BluetoothDevice)
    (hg : g amac = some devs) :
    ∀ (ads : List Str) (cfg0 : BlueVeinConfig),
      alistLookup amac cfg0.adapters =
        some ⟨SyncManager.buildDeviceMap devs⟩ →
      alistLookup amac
        ((ads.foldl (SyncManager.buildSystemStep g) cfg0)).adapters =
          some ⟨SyncManager.buildDeviceMap devs⟩ := by
  intro ads
  induction ads with
  | nil => intro cfg0 h; exact h
  | cons a rest ih =>
    intro cfg0 h
    rw [List.foldl_cons]
    refine ih _ ?_
    unfold SyncManager.buildSystemStep
    split
    · rename_i devs2 hg2
      split
      · exact h
      · simp only [BlueVeinConfig.set_adapter_devices]
        rw [alistLookup_insert]
        by_cases ha : a = amac
        · rw [if_pos ha]
          subst ha
          rw [hg] at hg2
          injection hg2 with hh
          rw [hh]
        · rw [if_neg ha]; exact h
    · exact h

theorem buildSystemFold_mem (g : Str → Option (List BluetoothDevice))
    (amac : Str) (devs : List BluetoothDevice)
    (hg : g amac = some devs) (hne : devs.isEmpty = false) :
    ∀ (ads : List Str) (cfg0 : BlueVeinConfig), amac ∈ ads →
      alistLookup amac
        ((ads.foldl (SyncManager.buildSystemStep g) cfg0)).adapters =
          some ⟨SyncManager.buildDeviceMap devs⟩ := by
  intro ads
  induction ads with
  | nil => intro cfg0 h; cases h
  | cons a rest ih =>
    intro cfg0 hmem
    rw [List.foldl_cons]
    rcases List.mem_cons.mp hmem with rfl | hmem'
    · refine buildSystemFold_stable g amac devs hg rest _ ?_
      unfold SyncManager.buildSystemStep
      split
      · rename_i devs2 hg2
        rw [hg] at hg2
        injection hg2 with hh
        subst hh
        split
        · rename_i hemp
          rw [hne] at hemp
          cases hemp
        · simp only [BlueVeinConfig.set_adapter_devices]
          rw [alistLookup_insert, if_pos rfl]
      · rename_i hg2
        rw [hg] at hg2
        cases hg2
    · exact ih _ hmem'

theorem buildSystemConfig_mem (input : SyncManager.SyncInput)
    (amac : Str) (devs : List BluetoothDevice)
    (ham : amac ∈ input.adapters)
    (hg : input.getDevices amac = some devs)
    (hne : devs.isEmpty = false) :
    (SyncManager.buildSystemConfig input).get_adapter_devices amac =
      some (SyncManager.buildDeviceMap devs) := by
  unfold BlueVeinConfig.get_adapter_devices SyncManager.buildSystemConfig
  rw [buildSystemFold_mem input.getDevices amac devs hg hne input.adapters
    BlueVeinConfig.new ham]
  rfl

/-! ## Lemmas about the set_device calls of sync_bidirectional -/

theorem merge_devices_mac (s e : BluetoothDevice) :
    (SyncManager.merge_devices s e).mac_address = s.mac_address := by
  simp only [SyncManager.merge_devices]
  split <;> rfl

theorem syncStep1Fold_mem
    (sd_map : List (Str × BluetoothDevice)) (amac : Str) :
    ∀ (l init : List (Str × BluetoothDevice)),
      (∀ q ∈ init, ∃ k s e, alistLookup k sd_map = some s ∧
        q = (amac, SyncManager.merge_devices s e)) →
      ∀ q ∈ l.foldl (SyncManager.syncStep1Fold sd_map amac) init,
        ∃ k s e, alistLookup k sd_map = some s ∧
          q = (amac, SyncManager.merge_devices s e) := by
  intro l
  induction l with
  | nil => intro init h q hq; exact h q hq
  | cons p rest ih =>
    intro init h q hq
    rw [List.foldl_cons] at hq
    refine ih _ ?_ q hq
    intro q' hq'
    unfold SyncManager.syncStep1Fold at hq'
    split at hq'
    · rename_i s hl
      split at hq'
      · rcases List.mem_append.mp hq' with h1 | h1
        · exact h q' h1
        · simp only [List.mem_singleton] at h1
          exact ⟨p.1, s, p.2, hl, h1⟩
      · exact h q' hq'
    · exact h q' hq'

theorem syncStep1_calls (sc ec : BlueVeinConfig) (amac : Str) :
    ∀ pcall ∈ SyncManager.syncStep1 sc ec amac,
      ∃ sys_devs k s e,
        sc.get_adapter_devices amac = some sys_devs ∧
        alistLookup k sys_devs = some s ∧
        pcall = (amac, SyncManager.merge_devices s e) := by
  intro pcall h
  unfold SyncManager.syncStep1 at h
  split at h
  · cases h
  · rename_i efi_devices he
    split at h
    · cases h
    · rename_i system_devices hs
      obtain ⟨k, s, e, hl, hq⟩ :=
        syncStep1Fold_mem system_devices amac efi_devices []
          (by intro q hq; cases hq) pcall h
      exact ⟨system_devices, k, s, e, hs, hl, hq⟩

/-- C2.  During any run of `sync_bidirectional`, every `set_device` call
targets an `(adapter, device)` pair the platform store already reported
before the sync: the adapter's `get_devices` succeeded and returned a
device with the written MAC.  In particular a device present only in the
canonical document causes no platform-store write. -/
theorem sync_bidirectional_no_new_devices :
    ∀ (input : SyncManager.SyncInput) (a : Str) (dev : BluetoothDevice),
      (a, dev) ∈ (SyncManager.sync_bidirectional input).2 →
      ∃ devs, input.getDevices a = some devs ∧
        ∃ d0 ∈ devs, d0.mac_address = dev.mac_address := by
  intro input a dev hmem
  unfold SyncManager.sync_bidirectional at hmem
  cases hefi : input.efi with
  | none =>
    rw [hefi] at hmem
    cases hmem
  | some efi0 =>
    rw [hefi] at hmem
    simp only at hmem
    -- generalized fold invariant over the adapter list
    have H : ∀ (ads : List Str)
        (st : BlueVeinConfig × List (Str × BluetoothDevice)),
        (∀ (a' : Str) (dev' : BluetoothDevice), (a', dev') ∈ st.2 →
          ∃ devs, input.getDevices a' = some devs ∧
            ∃ d0 ∈ devs, d0.mac_address = dev'.mac_address) →
        ∀ (a' : Str) (dev' : BluetoothDevice),
          (a', dev') ∈ (ads.foldl
            (SyncManager.syncAdapterFold
              (SyncManager.buildSystemConfig input)) st).2 →
          ∃ devs, input.getDevices a' = some devs ∧
            ∃ d0 ∈ devs, d0.mac_address = dev'.mac_address := by
      intro ads
      induction ads with
      | nil => intro st h a' dev' hm; exact h a' dev' hm
      | cons am rest ih =>
        intro st h a' dev' hm
        rw [List.foldl_cons] at hm
        refine ih _ ?_ a' dev' hm
        intro a2 dev2 hm2
        unfold SyncManager.syncAdapterFold at hm2
        simp only at hm2
        rcases List.mem_append.mp hm2 with h1 | h1
        · exact h a2 dev2 h1
        · obtain ⟨sys_devs, k, s, e, hga, hl, heq⟩ :=
            syncStep1_calls (SyncManager.buildSystemConfig input) st.1 am
              (a2, dev2) h1
          injection heq with heq1 heq2
          subst heq1
          obtain ⟨devs, hgd, hbd⟩ := buildSystemConfig_get input a2 sys_devs hga
          subst hbd
          rcases buildDeviceMap_lookup devs [] k s hl with ⟨hmem', hmac⟩ | hnone
          · refine ⟨devs, hgd, s, hmem', ?_⟩
            rw [heq2, merge_devices_mac]
          · cases hnone
    exact H input.adapters (efi0, []) (by intro a' dev' hm; cases hm) a dev hmem

/-- C2 witness: a system device whose classic key is supplied by the
canonical document receives a `set_device` call, and that call targets a
device the platform already reported. -/
theorem sync_bidirectional_no_new_devices_witness :
    ∃ devs,
      (SyncManager.SyncInput.mk
        (some ⟨[([65], ⟨[([68], ⟨[68], some ⟨[75], 4, 0⟩, none⟩)]⟩)]⟩)
        [[65]]
        (fun a => if a = [65] then some [⟨[68], none, none⟩] else none)).getDevices [65] = some devs ∧
      ∃ d0 ∈ devs, d0.mac_address =
        (SyncManager.merge_devices (⟨[68], none, none⟩ : BluetoothDevice)
          ⟨[68], some ⟨[75], 4, 0⟩, none⟩).mac_address :=
  sync_bidirectional_no_new_devices
    (SyncManager.SyncInput.mk
      (some ⟨[([65], ⟨[([68], ⟨[68], some ⟨[75], 4, 0⟩, none⟩)]⟩)]⟩)
      [[65]]
      (fun a => if a = [65] then some [⟨[68], none, none⟩] else none))
    [65]
    (SyncManager.merge_devices (⟨[68], none, none⟩ : BluetoothDevice)
      ⟨[68], some ⟨[75], 4, 0⟩, none⟩)
    (by decide)

/-! ## Presence lemmas for the canonical document -/

theorem update_device_get_adapter (cfg : BlueVeinConfig) (amac : Str)
    (d : BluetoothDevice) (a : Str) :
    (cfg.update_device amac d).get_adapter_devices a =
      if amac = a then
        some (alistInsert d.mac_address d
          ((cfg.get_adapter_devices amac).getD []))
      else cfg.get_adapter_devices a := by
  unfold BlueVeinConfig.update_device BlueVeinConfig.get_adapter_devices
  simp only
  rw [alistLookup_insert]
  by_cases h : amac = a
  · rw [if_pos h, if_pos h]
    cases hl : alistLookup amac cfg.adapters <;> simp [hl]
  · rw [if_neg h, if_neg h]

theorem update_device_pres_self (cfg : BlueVeinConfig) (amac : Str)
    (d : BluetoothDevice) :
    ((cfg.update_device amac d).get_device amac d.mac_address).isSome =
      true := by
  unfold BlueVeinConfig.get_device
  rw [update_device_get_adapter, if_pos rfl]
  show (alistLookup d.mac_address
    (alistInsert d.mac_address d
      ((cfg.get_adapter_devices amac).getD []))).isSome = true
  rw [alistLookup_insert, if_pos rfl]
  rfl

theorem update_device_pres_mono (cfg : BlueVeinConfig) (amac : Str)
    (d : BluetoothDevice) (a k : Str)
    (h : (cfg.get_device a k).isSome = true) :
    ((cfg.update_device amac d).get_device a k).isSome = true := by
  unfold BlueVeinConfig.get_device at h ⊢
  rw [update_device_get_adapter]
  by_cases ha : amac = a
  · rw [if_pos ha]
    subst ha
    cases hga : cfg.get_adapter_devices amac with
    | none => rw [hga] at h; simp at h
    | some ds =>
      rw [hga] at h
      show (alistLookup k (alistInsert d.mac_address d
        ((some ds).getD []))).isSome = true
      rw [alistLookup_insert]
      by_cases hk : d.mac_address = k
      · rw [if_pos hk]; rfl
      · rw [if_neg hk]
        simpa using h
  · rw [if_neg ha]; exact h

theorem foldl_update_pres_mono (amac : Str) :
    ∀ (l : List BluetoothDevice) (cfg : BlueVeinConfig) (a k : Str),
      (cfg.get_device a k).isSome = true →
      ((l.foldl (fun cfg d => cfg.update_device amac d) cfg).get_device
        a k).isSome = true := by
  intro l
  induction l with
  | nil => intro cfg a k h; exact h
  | cons c rest ih =>
    intro cfg a k h
    rw [List.foldl_cons]
    exact ih _ _ _ (update_device_pres_mono cfg amac c a k h)

theorem foldl_update_pres_mem (amac : Str) :
    ∀ (l : List BluetoothDevice) (cfg : BlueVeinConfig)
      (d : BluetoothDevice), d ∈ l →
      ((l.foldl (fun cfg d => cfg.update_device amac d) cfg).get_device
        amac d.mac_address).isSome = true := by
  intro l
  induction l with
  | nil => intro cfg d h; cases h
  | cons c rest ih =>
    intro cfg d hmem
    rw [List.foldl_cons]
    rcases List.mem_cons.mp hmem with rfl | hmem'
    · exact foldl_update_pres_mono amac rest _ amac d.mac_address
        (update_device_pres_self cfg amac d)
    · exact ih _ d hmem'

theorem syncStep2Collect_acc_mono
    (ed : Option (List (Str × BluetoothDevice))) :
    ∀ (l : List (Str × BluetoothDevice)) (acc : List BluetoothDevice)
      (x : BluetoothDevice), x ∈ acc →
      x ∈ l.foldl (SyncManager.syncStep2Collect ed) acc := by
  intro l
  induction l with
  | nil => intro acc x h; exact h
  | cons q rest ih =>
    intro acc x h
    rw [List.foldl_cons]
    refine ih _ x ?_
    unfold SyncManager.syncStep2Collect
    split
    · exact h
    · exact List.mem_append_left _ h

theorem syncStep2Collect_mem
    (ed : Option (List (Str × BluetoothDevice))) :
    ∀ (l : List (Str × BluetoothDevice)) (acc : List BluetoothDevice)
      (p : Str × BluetoothDevice), p ∈ l →
      (match ed with
        | some ds => (alistLookup p.1 ds).isSome
        | none => false) = false →
      p.2 ∈ l.foldl (SyncManager.syncStep2Collect ed) acc := by
  intro l
  induction l with
  | nil => intro acc p h; cases h
  | cons q rest ih =>
    intro acc p hp hc
    rw [List.foldl_cons]
    rcases List.mem_cons.mp hp with rfl | hp'
    · refine syncStep2Collect_acc_mono ed rest _ p.2 ?_
      unfold SyncManager.syncStep2Collect
      rw [hc]
      simp
    · exact ih _ p hp' hc

theorem syncStep2_covers (sc cfg : BlueVeinConfig) (amac : Str)
    (sys_map : List (Str × BluetoothDevice))
    (hs : sc.get_adapter_devices amac = some sys_map)
    (hpair : ∀ p ∈ sys_map,
      (p : Str × BluetoothDevice).2.mac_address = p.1)
    (k : Str) (s : BluetoothDevice)
    (hl : alistLookup k sys_map = some s) :
    ((SyncManager.syncStep2 sc cfg amac).get_device amac k).isSome =
      true := by
  unfold SyncManager.syncStep2
  split
  · rename_i hnone
    rw [hs] at hnone
    cases hnone
  · rename_i sys_map2 hs2
    rw [hs] at hs2
    injection hs2 with hh
    subst hh
    by_cases hc : (match cfg.get_adapter_devices amac with
        | some ds => (alistLookup k ds).isSome
        | none => false) = true
    · have hpres : (cfg.get_device amac k).isSome = true := by
        unfold BlueVeinConfig.get_device
        cases hed : cfg.get_adapter_devices amac with
        | none => rw [hed] at hc; cases hc
        | some ds =>
          rw [hed] at hc
          simpa using hc
      exact foldl_update_pres_mono amac _ cfg amac k hpres
    · have hcf : (match cfg.get_adapter_devices amac with
          | some ds => (alistLookup k ds).isSome
          | none => false) = false := by
        cases hb : (match cfg.get_adapter_devices amac with
          | some ds => (alistLookup k ds).isSome
          | none => false)
        · rfl
        · exact absurd hb hc
      have hmem := alistLookup_mem hl
      have hmac : s.mac_address = k := hpair (k, s) hmem
      have hcoll := syncStep2Collect_mem (cfg.get_adapter_devices amac)
        sys_map [] (k, s) hmem hcf
      have hfin := foldl_update_pres_mem amac _ cfg s hcoll
      rw [hmac] at hfin
      exact hfin

theorem syncStep2_pres_mono (sc cfg : BlueVeinConfig) (amac a k : Str)
    (h : (cfg.get_device a k).isSome = true) :
    ((SyncManager.syncStep2 sc cfg amac).get_device a k).isSome = true := by
  unfold SyncManager.syncStep2
  split
  · exact h
  · exact foldl_update_pres_mono amac _ cfg a k h

theorem sync_fold_pres_mono (sc : BlueVeinConfig) :
    ∀ (ads : List Str)
      (st : BlueVeinConfig × List (Str × BluetoothDevice)) (a k : Str),
      (st.1.get_device a k).isSome = true →
      (((ads.foldl (SyncManager.syncAdapterFold sc) st).1).get_device
        a k).isSome = true := by
  intro ads
  induction ads with
  | nil => intro st a k h; exact h
  | cons am rest ih =>
    intro st a k h
    rw [List.foldl_cons]
    exact ih _ a k (syncStep2_pres_mono sc st.1 am a k h)

theorem sync_fold_pres (input : SyncManager.SyncInput) (amac : Str)
    (devs : List BluetoothDevice) (d : BluetoothDevice)
    (hin : amac ∈ input.adapters)
    (hg : input.getDevices amac = some devs) (hd : d ∈ devs) :
    ∀ (ads : List Str)
      (st : BlueVeinConfig × List (Str × BluetoothDevice)),
      amac ∈ ads →
      (((ads.foldl (SyncManager.syncAdapterFold
        (SyncManager.buildSystemConfig input)) st).1).get_device amac
        d.mac_address).isSome = true := by
  intro ads
  induction ads with
  | nil => intro st h; cases h
  | cons a rest ih =>
    intro st hmem
    rw [List.foldl_cons]
    rcases List.mem_cons.mp hmem with rfl | hmem'
    · have hne : devs.isEmpty = false := by
        cases devs
        · cases hd
        · rfl
      have hsc := buildSystemConfig_mem input amac devs hin hg hne
      have hlk : (alistLookup d.mac_address
          (SyncManager.buildDeviceMap devs)).isSome = true := by
        unfold SyncManager.buildDeviceMap
        exact buildDeviceMap_lookup_isSome devs [] d.mac_address
          (Or.inl ⟨d, hd, rfl⟩)
      obtain ⟨s, hs⟩ := Option.isSome_iff_exists.mp hlk
      have hpair : ∀ p ∈ SyncManager.buildDeviceMap devs,
          (p : Str × BluetoothDevice).2.mac_address = p.1 := by
        unfold SyncManager.buildDeviceMap
        exact buildDeviceMap_pairs devs [] (by intro p hp; cases hp)
      have hstep := syncStep2_covers (SyncManager.buildSystemConfig input)
        st.1 amac (SyncManager.buildDeviceMap devs) hsc hpair
        d.mac_address s hs
      exact sync_fold_pres_mono (SyncManager.buildSystemConfig input)
        rest _ amac d.mac_address hstep
    · exact ih _ hmem'

/-- C3.  Postcondition of `sync_bidirectional`: for every adapter the
platform reports and every device its store reports for it, the canonical
document written back at the end contains an entry for that
`(adapter, device)` pair — whether or not a canonical document existed
before the call. -/
theorem sync_bidirectional_covers_platform :
    ∀ (input : SyncManager.SyncInput) (amac : Str)
      (devs : List BluetoothDevice) (d : BluetoothDevice),
      amac ∈ input.adapters → input.getDevices amac = some devs →
      d ∈ devs →
      ((SyncManager.sync_bidirectional input).1.get_device amac
        d.mac_address).isSome = true := by
  intro input amac devs d hin hg hd
  unfold SyncManager.sync_bidirectional
  split
  · rename_i efi0 hefi
    exact sync_fold_pres input amac devs d hin hg hd input.adapters
      (efi0, []) hin
  · have hne : devs.isEmpty = false := by
      cases devs
      · cases hd
      · rfl
    have hsc := buildSystemConfig_mem input amac devs hin hg hne
    unfold BlueVeinConfig.get_device
    rw [hsc]
    show (alistLookup d.mac_address
      (SyncManager.buildDeviceMap devs)).isSome = true
    unfold SyncManager.buildDeviceMap
    exact buildDeviceMap_lookup_isSome devs [] d.mac_address
      (Or.inl ⟨d, hd, rfl⟩)

/-- C3 witness: fresh sync with no prior canonical document; the reported
device ends up in the written document. -/
theorem sync_bidirectional_covers_platform_witness :
    ((SyncManager.sync_bidirectional
      (SyncManager.SyncInput.mk none [[65]]
        (fun a => if a = [65]
          then some [⟨[68], none, none⟩] else none))).1.get_device [65]
      (⟨[68], none, none⟩ : BluetoothDevice).mac_address).isSome = true :=
  sync_bidirectional_covers_platform
    (SyncManager.SyncInput.mk none [[65]]
      (fun a => if a = [65] then some [⟨[68], none, none⟩] else none))
    [65] [⟨[68], none, none⟩] ⟨[68], none, none⟩
    (by decide) (by decide) (by decide)

/-! ## The CSRK counter scenario of sync_bidirectional -/

theorem devices_differ_self (x : BluetoothDevice) :
    SyncManager.devices_differ x x = false := by
  simp [SyncManager.devices_differ]

/-- The device of the CSRK-counter scenario: one LE device whose local
signature key carries counter `n`. -/
def csrkScenarioDevice (n : Nat) : BluetoothDevice :=
  ⟨[68], none, some ⟨none, none, none, some ⟨[75], n, false⟩, none, none⟩⟩

/-- The CSRK-counter scenario: the canonical document holds the device
with counter 5, the platform store reports it with counter 9. -/
def csrkScenarioInput : SyncManager.SyncInput :=
  ⟨some ⟨[([65], ⟨[([68], csrkScenarioDevice 5)]⟩)]⟩,
   [[65]],
   fun a => if a = [65] then some [csrkScenarioDevice 9] else none⟩

/-- C1 counterexample: with canonical `{key K, counter 5}` and platform
`{key K, counter 9}`, `sync_bidirectional` issues no `set_device` call
(the platform entry keeps counter 9 untouched) and the canonical document
written back still carries counter 5 — not counter 9 as the claim
states. -/
theorem sync_csrk_counter_counterexample :
    (SyncManager.sync_bidirectional csrkScenarioInput).2 = [] ∧
    ((SyncManager.sync_bidirectional csrkScenarioInput).1.get_device
        [65] [68]).bind
      (fun d => d.le.bind (fun l => l.csrk_local.map CsrkKey.counter)) =
        some 5 ∧
    ¬ (((SyncManager.sync_bidirectional csrkScenarioInput).1.get_device
        [65] [68]).bind
      (fun d => d.le.bind (fun l => l.csrk_local.map CsrkKey.counter)) =
        some 9) := by decide

/-- C1 (amended).  With canonical `{key, counter 5}` and platform
`{key, counter 9}` for the same device (otherwise identical), a run of
`sync_bidirectional` issues no `set_device` call — the merged device
equals the system device, so the platform entry keeps `{key, counter 9}`
— and the canonical entry written back still holds `{key, counter 5}`:
merged devices are pushed only to the platform store, never back into the
canonical document. -/
theorem sync_csrk_counter_amended :
    ∀ (mac : Str) (classic : Option ClassicKeys)
      (ltk pltk : Option LeLongTermKey) (irk : Option Str)
      (cr : Option CsrkKey) (adty : Option Str)
      (ck : Str) (ca : Bool) (a : Str),
      (SyncManager.sync_bidirectional (SyncManager.SyncInput.mk
        (some ⟨[(a, ⟨[(mac,
          ⟨mac, classic, some ⟨ltk, pltk, irk, some ⟨ck, 5, ca⟩, cr, adty⟩⟩)]⟩)]⟩)
        [a]
        (fun x => if x = a
          then some [⟨mac, classic,
            some ⟨ltk, pltk, irk, some ⟨ck, 9, ca⟩, cr, adty⟩⟩]
          else none))).2 = [] ∧
      (SyncManager.sync_bidirectional (SyncManager.SyncInput.mk
        (some ⟨[(a, ⟨[(mac,
          ⟨mac, classic, some ⟨ltk, pltk, irk, some ⟨ck, 5, ca⟩, cr, adty⟩⟩)]⟩)]⟩)
        [a]
        (fun x => if x = a
          then some [⟨mac, classic,
            some ⟨ltk, pltk, irk, some ⟨ck, 9, ca⟩, cr, adty⟩⟩]
          else none))).1.get_device a mac =
        some ⟨mac, classic,
          some ⟨ltk, pltk, irk, some ⟨ck, 5, ca⟩, cr, adty⟩⟩ := by
  intro mac classic ltk pltk irk cr adty ck ca a
  have h95 : max (9 : Nat) 5 = 9 := by norm_num
  have hcl : SyncManager.merge_csrk (some ⟨ck, 9, ca⟩) (some ⟨ck, 5, ca⟩) =
      some ⟨ck, 9, ca⟩ := by
    simp [SyncManager.merge_csrk, h95]
  have hmrg : SyncManager.merge_devices
      ⟨mac, classic, some ⟨ltk, pltk, irk, some ⟨ck, 9, ca⟩, cr, adty⟩⟩
      ⟨mac, classic, some ⟨ltk, pltk, irk, some ⟨ck, 5, ca⟩, cr, adty⟩⟩ =
      ⟨mac, classic, some ⟨ltk, pltk, irk, some ⟨ck, 9, ca⟩, cr, adty⟩⟩ := by
    simp [SyncManager.merge_devices, BluetoothDevice.merge_with,
      BluetoothDevice.merge_le_keys, hcl, merge_csrk_self]
  constructor <;>
    simp [SyncManager.sync_bidirectional, SyncManager.buildSystemConfig,
      SyncManager.buildSystemStep, SyncManager.buildDeviceMap,
      SyncManager.syncAdapterFold, SyncManager.syncStep1,
      SyncManager.syncStep1Fold, SyncManager.syncStep2,
      SyncManager.syncStep2Collect, BlueVeinConfig.new,
      BlueVeinConfig.set_adapter_devices, BlueVeinConfig.get_adapter_devices,
      BlueVeinConfig.get_device, BlueVeinConfig.update_device,
      alistLookup, alistInsert, hmrg, devices_differ_self]
